import Mathlib

/-!
Verification development for the podman-cli repository: a shallow embedding of
its host-configuration resolution (`internal/client`), transport configuration
(`NewSSHClientConfig`), command registry (`internal/commands`), and the CLI
pipeline (`internal/cli`, `cmd/podman-cli`), together with theorems settling
the specified properties.

External effects (file system, the ssh_config library, the SSH transport) are
modelled as oracles supplied in a "world" record; the control flow, defaulting
rules and error plumbing are translated branch-for-branch from the Go source.
-/

namespace PodmanCli

/-! ## Go path model: `path/filepath` `Clean` and `Join` (Unix rules) -/

/-- Go `strings.HasPrefix`, on the character data of the strings. -/
def goStartsWith (s pre : String) : Bool :=
  pre.data.isPrefixOf s.data

/-- Split a character list at every `/`, as `strings.Split(path, "/")` does:
`n` separators yield `n + 1` pieces. -/
def splitOnSlash : List Char → List Char → List String
  | [], cur => [⟨cur.reverse⟩]
  | '/' :: rest, cur => ⟨cur.reverse⟩ :: splitOnSlash rest []
  | c :: rest, cur => splitOnSlash rest (c :: cur)

/-- One pass of Go's `filepath.Clean` element processing: skip empty and `.`
elements, resolve `..` against the output stack (never above the root when the
path is rooted), and keep everything else. -/
def cleanLoop (rooted : Bool) : List String → List String → List String
  | [], acc => acc.reverse
  | c :: rest, acc =>
    if c = "" ∨ c = "." then cleanLoop rooted rest acc
    else if c = ".." then
      match acc with
      | a :: acc' =>
        if a = ".." then cleanLoop rooted rest (c :: a :: acc')
        else cleanLoop rooted rest acc'
      | [] => if rooted then cleanLoop rooted rest [] else cleanLoop rooted rest [".."]
    else cleanLoop rooted rest (c :: acc)

/-- Go `filepath.Clean` for Unix separators: lexical cleaning of a path. -/
def filepathClean (path : String) : String :=
  if path = "" then "."
  else
    let rooted := goStartsWith path "/"
    let comps := cleanLoop rooted (splitOnSlash path.data []) []
    let out := String.intercalate "/" comps
    if rooted then "/" ++ out
    else if out = "" then "." else out

/-- Go `filepath.Join`: drop leading empty elements, join the rest with `/`,
and `Clean` the result; all-empty input yields the empty string. -/
def filepathJoin (elems : List String) : String :=
  match elems.dropWhile (fun e => e == "") with
  | [] => ""
  | rest => filepathClean (String.intercalate "/" rest)

/-! ## Errors

Go propagates opaque `error` values unchanged (`if err != nil { return nil, err }`).
The constructors cover the distinct error sources of this program; `other`
stands for any further library-produced error value. -/

inductive GoError where
  | openFailed (path : String)
  | decodeFailed (msg : String)
  | getFailed (key : String)
  | numError (fn : String) (num : String) (msg : String)
  | readFileFailed (path : String)
  | parseKeyFailed (msg : String)
  | knownHostsFailed (msg : String)
  | noCommand
  | hostRequired
  | invalidCommand (name : String)
  | other (msg : String)
deriving DecidableEq, Repr

/-- Go `strconv.Atoi`: optional sign, decimal digits, 64-bit signed range;
the error carries the function name and the offending token, mirroring
`strconv.NumError`. -/
def Atoi (s : String) : Except GoError Int :=
  let (neg, digits) :=
    if goStartsWith s "-" then (true, s.drop 1)
    else if goStartsWith s "+" then (false, s.drop 1)
    else (false, s)
  if digits.data = [] ∨ digits.data.any (fun c => ¬ c.isDigit) then
    .error (.numError "Atoi" s "invalid syntax")
  else
    let n : Nat := digits.data.foldl (fun a c => a * 10 + (c.toNat - 48)) 0
    let v : Int := if neg then -(n : Int) else (n : Int)
    if v < -(2 : Int) ^ 63 ∨ (2 : Int) ^ 63 - 1 < v then
      .error (.numError "Atoi" s "value out of range")
    else .ok v

/-! ## Environment of the client package

`SSHConfFile` is the value produced by the external `ssh_config.Decode`:
`Get host key` returns the directive's configured value, `""` when the alias
or directive is absent, or an error from the library. `ClientWorld` collects
the process environment and the outcome of the file operations performed by
`NewUserConfig` / `NewSSHConfig`. -/

structure SSHConfFile where
  Get : String → String → Except GoError String

structure ClientWorld where
  home : String
  osUser : String
  openConfig : Except GoError Unit
  decode : Except GoError SSHConfFile

/-- `UserConfig` from `internal/client`: resolved per-host SSH parameters. -/
structure UserConfig where
  user : String
  port : String
  hostName : String
  knownHosts : String
  identityFile : String
deriving DecidableEq, Repr

/-- `sshUserFilePath`: absolute path of a file in the user's `.ssh` directory. -/
def sshUserFilePath (home : String) (fileName : String) : String :=
  filepathJoin [home, ".ssh", fileName]

/-- `fmt.Sprintf` restricted to `%s` verbs, on a character-list format. -/
def fmtRun : List Char → List String → List Char
  | [], _ => []
  | '%' :: 's' :: rest, a :: args => a.data ++ fmtRun rest args
  | '%' :: 's' :: rest, [] => fmtRun rest []
  | c :: rest, args => c :: fmtRun rest args

def fmtSprintf (format : String) (args : List String) : String :=
  ⟨fmtRun format.data args⟩

/-- `UserConfig.Addr`: the SSH server address, `fmt.Sprintf("%s:%s", hostName, port)`. -/
def UserConfig.Addr (uc : UserConfig) : String :=
  fmtSprintf "%s:%s" [uc.hostName, uc.port]

/-- `NewUserConfig` from `internal/client`: open and decode `~/.ssh/config`,
look up `HostName`, `User`, `IdentityFile`, `Port` for the host, and apply the
defaults (alias itself, `$USER`, `~/.ssh/id_ed25519`, `"22"`); a `~/`-prefixed
identity path is expanded against `$HOME`. -/
def NewUserConfig (w : ClientWorld) (host : String) : Except GoError UserConfig :=
  match w.openConfig with
  | .error e => .error e
  | .ok _ =>
    match w.decode with
    | .error e => .error e
    | .ok conf =>
      match conf.Get host "HostName" with
      | .error e => .error e
      | .ok hostName0 =>
        let hostName := if hostName0 = "" then host else hostName0
        match conf.Get host "User" with
        | .error e => .error e
        | .ok user0 =>
          let user := if user0 = "" then w.osUser else user0
          match conf.Get host "IdentityFile" with
          | .error e => .error e
          | .ok idFile0 =>
            let idFile :=
              if idFile0 = "" then sshUserFilePath w.home "id_ed25519"
              else if goStartsWith idFile0 "~/" then filepathJoin [w.home, idFile0.drop 2]
              else idFile0
            match conf.Get host "Port" with
            | .error e => .error e
            | .ok port0 =>
              let port := if port0 = "" then "22" else port0
              .ok { user := user, port := port, hostName := hostName,
                    knownHosts := sshUserFilePath w.home "known_hosts",
                    identityFile := idFile }

/-! ## Legacy resolver `internal/config.NewSSHConfig`

The earlier revision of host resolution: same lookups and defaults, but the
port is parsed with `strconv.Atoi` into an `int` field. -/

structure SSHConfig where
  HostName : String
  User : String
  IdentityFile : String
  Port : Int
deriving DecidableEq, Repr

def NewSSHConfig (w : ClientWorld) (host : String) : Except GoError SSHConfig :=
  match w.openConfig with
  | .error e => .error e
  | .ok _ =>
    match w.decode with
    | .error e => .error e
    | .ok conf =>
      match conf.Get host "HostName" with
      | .error e => .error e
      | .ok hostName0 =>
        let hostName := if hostName0 = "" then host else hostName0
        match conf.Get host "User" with
        | .error e => .error e
        | .ok user0 =>
          let user := if user0 = "" then w.osUser else user0
          match conf.Get host "IdentityFile" with
          | .error e => .error e
          | .ok idFile0 =>
            let idFile :=
              if idFile0 = "" then filepathJoin [w.home, ".ssh", "id_ed25519"]
              else if goStartsWith idFile0 "~/" then filepathJoin [w.home, idFile0.drop 2]
              else idFile0
            match conf.Get host "Port" with
            | .error e => .error e
            | .ok port0 =>
              let port := if port0 = "" then "22" else port0
              match Atoi port with
              | .error e => .error e
              | .ok portInt =>
                .ok { HostName := hostName, User := user,
                      IdentityFile := idFile, Port := portInt }

/-! ## Command registry (`internal/commands`)

Go maps are reference values; to state the freshness of the copy returned by
`Commands()` we model map values as association lists and the live maps of a
run as cells of a small heap, with the package-level `commands` registry at
cell 0. -/

/-- `Command`: a Podman API endpoint (path and HTTP method). -/
structure Command where
  Path : String
  Method : String
deriving DecidableEq, Repr

abbrev CmdMap := List (String × Command)

/-- Go map read `m[k]`. -/
def mapRead (m : CmdMap) (k : String) : Option Command :=
  m.lookup k

/-- Go map assignment `m[k] = v`: replace an existing binding or append. -/
def mapAssign (m : CmdMap) (k : String) (v : Command) : CmdMap :=
  if m.any (fun kv => kv.1 == k) then
    m.map (fun kv => if kv.1 = k then (k, v) else kv)
  else m ++ [(k, v)]

/-- Go `delete(m, k)`. -/
def mapDelete (m : CmdMap) (k : String) : CmdMap :=
  m.filter (fun kv => ¬ kv.1 = k)

/-- The internal registry `commands` of `internal/commands`. -/
def commands : CmdMap :=
  [("list_containers", { Path := "/v3.0.0/containers/json", Method := "GET" })]

/-- `IsCommand`: look the name up in the registry; `none` when absent. -/
def IsCommand (cmd : String) : Option Command :=
  mapRead commands cmd

/-- The copy loop of `Commands()`: `for k, v := range commands { copy[k] = v }`
starting from a freshly made empty map. -/
def copyMap (m : CmdMap) : CmdMap :=
  m.foldl (fun acc kv => mapAssign acc kv.1 kv.2) []

/-- Heap of live Go map values; cell 0 is the package-level `commands` var. -/
structure MapState where
  heap : List CmdMap
deriving Repr

def registryRef : Nat := 0

def initMapState : MapState := ⟨[commands]⟩

def readMapRef (s : MapState) (r : Nat) : CmdMap :=
  s.heap[r]?.getD []

def writeMapRef (s : MapState) (r : Nat) (v : CmdMap) : MapState :=
  ⟨s.heap.set r v⟩

/-- `Commands()`: allocate a fresh map holding a copy of the registry and
return its reference. -/
def CommandsGo (s : MapState) : Nat × MapState :=
  (s.heap.length, ⟨s.heap ++ [copyMap (readMapRef s registryRef)]⟩)

/-- Operations a caller can perform: call `Commands()`, or mutate a map it
holds a reference to (adding or removing entries). -/
inductive MapOp where
  | commandsCall
  | assign (r : Nat) (k : String) (v : Command)
  | del (r : Nat) (k : String)
deriving DecidableEq, Repr

def stepMapOp (s : MapState) : MapOp → MapState
  | .commandsCall => (CommandsGo s).2
  | .assign r k v => writeMapRef s r (mapAssign (readMapRef s r) k v)
  | .del r k => writeMapRef s r (mapDelete (readMapRef s r) k)

def runMapOps (s : MapState) (ops : List MapOp) : MapState :=
  ops.foldl stepMapOp s

/-- An operation that only mutates references handed out by `Commands()`
(every such reference is positive; the registry sits at cell 0). -/
def mutatesOnlyReturned : MapOp → Prop
  | .commandsCall => True
  | .assign r _ _ => 1 ≤ r
  | .del r _ => 1 ≤ r

/-! ## Transport configuration (`NewSSHClientConfig`)

`AuthWorld` carries the oracles for `os.ReadFile`, `ssh.ParsePrivateKey` and
`knownhosts.New`. The host-key callback is either the insecure
accept-everything policy or the known-hosts checker the library returned. -/

abbrev Duration := Int

structure Signer where
  keyId : String
deriving DecidableEq, Repr

inductive AuthMethod where
  | publicKeys (signer : Signer)
deriving DecidableEq

inductive HostKeyCallback where
  | insecureIgnore
  | knownHosts (check : String → Bool)

/-- Whether the callback accepts the remote host identity `hostId`. -/
def HostKeyCallback.accepts : HostKeyCallback → String → Bool
  | .insecureIgnore, _ => true
  | .knownHosts check, hostId => check hostId

structure AuthWorld where
  readFile : String → Except GoError String
  parsePrivateKey : String → Except GoError Signer
  knownhostsNew : String → Except GoError (String → Bool)

structure SSHClientConfig where
  User : String
  Auth : List AuthMethod
  HostKeyCallback : HostKeyCallback
  Timeout : Duration

/-- Observable actions of one invocation, in order of occurrence. -/
inductive Event where
  | openConfigFile
  | readIdentityFile (path : String)
  | loadKnownHosts (path : String)
  | sshDial (addr : String)
  | unixDial (path : String)
  | writeRequest
  | readResponse
  | printStatus (status : String)
  | readBody
  | printBody (body : String)
  | closeBody
  | closeChannel
  | closeSession
deriving DecidableEq, Repr

/-- `NewSSHClientConfig`: read the identity file, parse the private key, pick
the host-key policy from the `insecure` flag (accept anything, or the
known-hosts checker loaded from `userConfig.knownHosts`), and assemble the
client configuration. Returns the Go result paired with the trace of external
actions taken. -/
def NewSSHClientConfig (w : AuthWorld) (timeout : Duration) (insecure : Bool)
    (userConfig : UserConfig) : Except GoError SSHClientConfig × List Event :=
  match w.readFile userConfig.identityFile with
  | .error e => (.error e, [.readIdentityFile userConfig.identityFile])
  | .ok key =>
    match w.parsePrivateKey key with
    | .error e => (.error e, [.readIdentityFile userConfig.identityFile])
    | .ok signer =>
      if insecure then
        (.ok { User := userConfig.user, Auth := [.publicKeys signer],
               HostKeyCallback := .insecureIgnore, Timeout := timeout },
         [.readIdentityFile userConfig.identityFile])
      else
        match w.knownhostsNew userConfig.knownHosts with
        | .error e =>
          (.error e,
           [.readIdentityFile userConfig.identityFile,
            .loadKnownHosts userConfig.knownHosts])
        | .ok check =>
          (.ok { User := userConfig.user, Auth := [.publicKeys signer],
                 HostKeyCallback := .knownHosts check, Timeout := timeout },
           [.readIdentityFile userConfig.identityFile,
            .loadKnownHosts userConfig.knownHosts])

/-! ## CLI pipeline (`internal/cli`, `cmd/podman-cli`) -/

structure HTTPResponse where
  Status : String
  StatusCode : Int
deriving DecidableEq, Repr

/-- Outcomes of the network operations performed by `RemoteCLI.Run`. -/
structure RunWorld where
  sshDial : Except GoError Unit
  unixDial : Except GoError Unit
  writeReq : Except GoError Unit
  readResp : Except GoError HTTPResponse
  readBody : Except GoError String

structure CLIWorld where
  client : ClientWorld
  auth : AuthWorld
  run : RunWorld

structure RemoteCLI where
  addr : String
  command : Command
  sshClientConfig : SSHClientConfig

/-- The remote Podman socket path hardcoded in `Run`. -/
def remoteSocket : String := "/run/user/1000/podman/podman.sock"

/-- `NewRemoteCLI` after flag parsing: check that a positional command and a
host were given, look the command up in the registry, resolve the host
configuration, and build the SSH client configuration; each failure aborts
with the corresponding error. The trace records the external actions taken. -/
def NewRemoteCLI (w : CLIWorld) (host : String) (timeout : Duration)
    (insecure : Bool) (args : List String) :
    Except GoError RemoteCLI × List Event :=
  match args with
  | [] => (.error .noCommand, [])
  | c :: _ =>
    if host = "" then (.error .hostRequired, [])
    else
      match IsCommand c with
      | none => (.error (.invalidCommand c), [])
      | some command =>
        match NewUserConfig w.client host with
        | .error e => (.error e, [.openConfigFile])
        | .ok userConfig =>
          match NewSSHClientConfig w.auth timeout insecure userConfig with
          | (.error e, t) => (.error e, .openConfigFile :: t)
          | (.ok scc, t) =>
            (.ok { addr := userConfig.Addr, command := command,
                   sshClientConfig := scc },
             .openConfigFile :: t)

/-- `RemoteCLI.Run`: dial SSH, dial the remote Unix socket through the tunnel,
write the HTTP request, read and print the response, and map the status code
to the exit code; the deferred closes run in last-in-first-out order on every
exit path. -/
def RemoteCLI.Run (w : RunWorld) (rc : RemoteCLI) : Int × List Event :=
  let t0 := [Event.sshDial rc.addr]
  match w.sshDial with
  | .error _ => (1, t0)
  | .ok _ =>
    let t1 := t0 ++ [Event.unixDial remoteSocket]
    match w.unixDial with
    | .error _ => (1, t1 ++ [.closeSession])
    | .ok _ =>
      let t2 := t1 ++ [Event.writeRequest]
      match w.writeReq with
      | .error _ => (1, t2 ++ [.closeChannel, .closeSession])
      | .ok _ =>
        let t3 := t2 ++ [Event.readResponse]
        match w.readResp with
        | .error _ => (1, t3 ++ [.closeChannel, .closeSession])
        | .ok resp =>
          let t4 := t3 ++ [Event.printStatus resp.Status, Event.readBody]
          match w.readBody with
          | .error _ => (1, t4 ++ [.closeBody, .closeChannel, .closeSession])
          | .ok body =>
            let t5 := t4 ++ [Event.printBody body]
            let exitCode : Int :=
              if resp.StatusCode < 200 ∨ 300 ≤ resp.StatusCode then 1 else 0
            (exitCode, t5 ++ [.closeBody, .closeChannel, .closeSession])

/-- `main` of `cmd/podman-cli`: construct the CLI, exiting 1 on a construction
error, otherwise run it and exit with `Run`'s code. -/
def mainGo (w : CLIWorld) (host : String) (timeout : Duration)
    (insecure : Bool) (args : List String) : Int × List Event :=
  match NewRemoteCLI w host timeout insecure args with
  | (.error _, t) => (1, t)
  | (.ok rc, t) =>
    let r := RemoteCLI.Run w.run rc
    (r.1, t ++ r.2)

/-! ## Concrete fixtures for counterexamples and witnesses -/

/-- Decoded config with no directives for any alias (empty config file). -/
def confEmpty : SSHConfFile := ⟨fun _ _ => .ok ""⟩

def worldEmpty : ClientWorld :=
  { home := "/home/testuser", osUser := "testuser",
    openConfig := .ok (), decode := .ok confEmpty }

/-- Decoded config whose only directive is a non-numeric `Port`. -/
def confPortNaN : SSHConfFile :=
  ⟨fun _ key => .ok (if key = "Port" then "notanumber" else "")⟩

def worldPortNaN : ClientWorld :=
  { home := "/home/alex", osUser := "alex",
    openConfig := .ok (), decode := .ok confPortNaN }

/-- Decoded config of the fully-specified scenario: `HostName 192.168.1.100`,
`Port 2222`, `User admin`, `IdentityFile ~/.ssh/id_rsa`. -/
def confFull : SSHConfFile :=
  ⟨fun _ key => .ok (
    if key = "HostName" then "192.168.1.100"
    else if key = "Port" then "2222"
    else if key = "User" then "admin"
    else if key = "IdentityFile" then "~/.ssh/id_rsa"
    else "")⟩

def worldFull : ClientWorld :=
  { home := "/home/testuser", osUser := "testuser",
    openConfig := .ok (), decode := .ok confFull }

/-- The resolution of `confFull` for alias `myserver`. -/
def ucFull : UserConfig :=
  { user := "admin", port := "2222", hostName := "192.168.1.100",
    knownHosts := "/home/testuser/.ssh/known_hosts",
    identityFile := "/home/testuser/.ssh/id_rsa" }

/-- Decoded config whose only directive is a tilde-free absolute `IdentityFile`. -/
def confVerbatim : SSHConfFile :=
  ⟨fun _ key => .ok (if key = "IdentityFile" then "/etc/keys/op_key" else "")⟩

def worldVerbatim : ClientWorld :=
  { home := "/home/testuser", osUser := "testuser",
    openConfig := .ok (), decode := .ok confVerbatim }

/-- Decoded config whose only directive is a tilde-prefixed `IdentityFile`. -/
def confTilde : SSHConfFile :=
  ⟨fun _ key => .ok (if key = "IdentityFile" then "~/.ssh/id_rsa" else "")⟩

def worldTilde : ClientWorld :=
  { home := "/home/testuser", osUser := "testuser",
    openConfig := .ok (), decode := .ok confTilde }

/-- Authentication oracles with a readable key and a parsable known-hosts file. -/
def authKnown : AuthWorld :=
  { readFile := fun _ => .ok "PRIVATE KEY BYTES",
    parsePrivateKey := fun _ => .ok ⟨"ed25519-signer"⟩,
    knownhostsNew := fun _ => .ok (fun hostId => hostId == "known.example.com") }

/-- Authentication oracles whose known-hosts database is unparsable. -/
def authBadKnownHosts : AuthWorld :=
  { readFile := fun _ => .ok "PRIVATE KEY BYTES",
    parsePrivateKey := fun _ => .ok ⟨"ed25519-signer"⟩,
    knownhostsNew := fun _ => .error (.knownHostsFailed "illegal base64 data") }

/-- Network world where every operation succeeds and the daemon replies with
the given status. -/
def runRespond (code : Int) (status : String) : RunWorld :=
  { sshDial := .ok (), unixDial := .ok (), writeReq := .ok (),
    readResp := .ok { Status := status, StatusCode := code },
    readBody := .ok "[]" }

/-- Network world where every operation fails. -/
def runUnreachable : RunWorld :=
  { sshDial := .error (.other "connection refused"),
    unixDial := .error (.other "connection refused"),
    writeReq := .error (.other "connection refused"),
    readResp := .error (.other "connection refused"),
    readBody := .error (.other "connection refused") }

def rcFixture : RemoteCLI :=
  { addr := "192.168.1.100:2222",
    command := { Path := "/v3.0.0/containers/json", Method := "GET" },
    sshClientConfig :=
      { User := "admin", Auth := [.publicKeys ⟨"ed25519-signer"⟩],
        HostKeyCallback := .insecureIgnore, Timeout := 30 } }

def cliFixture : CLIWorld :=
  { client := worldEmpty, auth := authKnown, run := runUnreachable }

/-- A run calling `Commands()` once and then mutating the returned map. -/
def opsFixture : List MapOp :=
  [.commandsCall, .assign 1 "list_images" { Path := "/v3.0.0/images/json", Method := "GET" }]

/-! ## Helper lemmas -/

theorem String.append_ne_empty_left {s t : String} (h : s ≠ "") : s ++ t ≠ "" := by
  intro hc
  apply h
  cases s with
  | mk sd =>
    cases t with
    | mk td =>
      have hdata : sd ++ td = ([] : List Char) := congrArg String.data hc
      have : sd = [] := (List.append_eq_nil.mp hdata).1
      simp [this]

theorem filepathClean_ne_empty (p : String) : filepathClean p ≠ "" := by
  unfold filepathClean
  by_cases h0 : p = ""
  · simp [h0]
  · simp only [h0, if_false]
    by_cases hr : goStartsWith p "/"
    · simp only [hr, if_true]
      exact String.append_ne_empty_left (by decide)
    · simp only [hr]
      by_cases he : String.intercalate "/" (cleanLoop false (splitOnSlash p.data []) []) = ""
      · simp [he]
      · simp [he]

theorem filepathJoin_cons_ne_empty (x : String) (xs : List String) (hx : x ≠ "") :
    filepathJoin (x :: xs) ≠ "" := by
  unfold filepathJoin
  have hbeq : (x == "") = false := beq_eq_false_iff_ne.mpr hx
  rw [List.dropWhile_cons, hbeq]
  simp only [Bool.false_eq_true, if_false]
  exact filepathClean_ne_empty _

/-- The registry cell of the heap is untouched by any run made of calls to
`Commands()` and mutations of the references those calls returned. -/
theorem registry_stable (ops : List MapOp) : ∀ s : MapState,
    s.heap[registryRef]? = some commands → (∀ op ∈ ops, mutatesOnlyReturned op) →
    (runMapOps s ops).heap[registryRef]? = some commands := by
  induction ops with
  | nil => intro s hs _; simpa [runMapOps] using hs
  | cons op rest ih =>
    intro s hs hops
    have hop : mutatesOnlyReturned op := hops op (by simp)
    have hrest : ∀ o ∈ rest, mutatesOnlyReturned o := fun o hoo => hops o (by simp [hoo])
    have hstep : (stepMapOp s op).heap[registryRef]? = some commands := by
      cases op with
      | commandsCall =>
        have hlt : registryRef < s.heap.length := by
          rcases List.getElem?_eq_some.mp hs with ⟨hlt, _⟩
          exact hlt
        show (s.heap ++ _)[registryRef]? = some commands
        rw [List.getElem?_append_left hlt]
        exact hs
      | assign r k v =>
        have hr : (1 : Nat) ≤ r := hop
        show (s.heap.set r _)[registryRef]? = some commands
        rw [List.getElem?_set_ne (by simp only [registryRef]; omega)]
        exact hs
      | del r k =>
        have hr : (1 : Nat) ≤ r := hop
        show (s.heap.set r _)[registryRef]? = some commands
        rw [List.getElem?_set_ne (by simp only [registryRef]; omega)]
        exact hs
    have hrw : runMapOps s (op :: rest) = runMapOps (stepMapOp s op) rest := rfl
    rw [hrw]
    exact ih _ hstep hrest

/-- The value of the map `Commands()` returns is the copy of the registry made
at call time. -/
theorem CommandsGo_returned_value (s : MapState) :
    readMapRef (CommandsGo s).2 (CommandsGo s).1 = copyMap (readMapRef s registryRef) := by
  show ((s.heap ++ [copyMap (readMapRef s registryRef)])[s.heap.length]?).getD [] = _
  rw [List.getElem?_concat_length]
  rfl

/-! ## Claim theorems -/

/-- C1, counterexample: with a configuration whose `Port` directive is the
non-numeric token `"notanumber"`, `NewUserConfig` does NOT fail: it returns a
successful `UserConfig` carrying the token verbatim in its `port` field,
contradicting the claim that resolution never succeeds in that case. -/
theorem notanumber_port_resolution_succeeds :
    NewUserConfig worldPortNaN "myhost" =
      .ok { user := "alex", port := "notanumber", hostName := "myhost",
            knownHosts := "/home/alex/.ssh/known_hosts",
            identityFile := "/home/alex/.ssh/id_ed25519" } := rfl

/-- C1, amended: host resolution (`NewUserConfig`) does not validate the
`Port` directive; a `Port` value of `"notanumber"` resolves successfully with
the `port` field set verbatim to the token. Only the legacy resolver
`NewSSHConfig` parses the port with `strconv.Atoi` and fails there, surfacing
the offending token in the error. -/
theorem port_not_validated_by_NewUserConfig (w : ClientWorld) (conf : SSHConfFile)
    (host hn u0 f0 : String)
    (ho : w.openConfig = .ok ()) (hd : w.decode = .ok conf)
    (hHN : conf.Get host "HostName" = .ok hn) (hU : conf.Get host "User" = .ok u0)
    (hid : conf.Get host "IdentityFile" = .ok f0)
    (hP : conf.Get host "Port" = .ok "notanumber") :
    (∃ uc, NewUserConfig w host = .ok uc ∧ uc.port = "notanumber") ∧
    NewSSHConfig w host = .error (.numError "Atoi" "notanumber" "invalid syntax") := by
  have hAt : Atoi "notanumber" = .error (.numError "Atoi" "notanumber" "invalid syntax") := rfl
  constructor
  · have hok : NewUserConfig w host =
        .ok { user := if u0 = "" then w.osUser else u0,
              port := "notanumber",
              hostName := if hn = "" then host else hn,
              knownHosts := sshUserFilePath w.home "known_hosts",
              identityFile := if f0 = "" then sshUserFilePath w.home "id_ed25519"
                else if goStartsWith f0 "~/" then filepathJoin [w.home, f0.drop 2]
                else f0 } := by
      simp [NewUserConfig, ho, hd, hHN, hU, hid, hP]
    exact ⟨_, hok, rfl⟩
  · simp [NewSSHConfig, ho, hd, hHN, hU, hid, hP, hAt]

/-- C1, witness: the amended claim instantiated at the concrete fixture
configuration whose `Port` directive is `"notanumber"`. -/
theorem port_not_validated_by_NewUserConfig_witness :
    (∃ uc, NewUserConfig worldPortNaN "myhost" = .ok uc ∧ uc.port = "notanumber") ∧
    NewSSHConfig worldPortNaN "myhost" =
      .error (.numError "Atoi" "notanumber" "invalid syntax") :=
  port_not_validated_by_NewUserConfig worldPortNaN confPortNaN "myhost" "" "" ""
    rfl rfl rfl rfl rfl rfl

/-- C2: `NewSSHClientConfig` selects the host-verification policy from the
caller's skip flag. With the flag set, the callback is the insecure policy
that accepts any remote host identity unconditionally; with the flag clear,
the known-hosts database at `userConfig.knownHosts` is loaded and its checker
installed, and an unparsable database makes construction fail with that error
(the returned traces show no dialing happens in this constructor). -/
theorem NewSSHClientConfig_host_verification_policy (w : AuthWorld)
    (timeout : Duration) (uc : UserConfig) (key : String) (signer : Signer)
    (hrf : w.readFile uc.identityFile = .ok key)
    (hpk : w.parsePrivateKey key = .ok signer) :
    (NewSSHClientConfig w timeout true uc =
        (.ok { User := uc.user, Auth := [.publicKeys signer],
               HostKeyCallback := .insecureIgnore, Timeout := timeout },
         [.readIdentityFile uc.identityFile]) ∧
      ∀ hostId, HostKeyCallback.insecureIgnore.accepts hostId = true) ∧
    (∀ check, w.knownhostsNew uc.knownHosts = .ok check →
      NewSSHClientConfig w timeout false uc =
        (.ok { User := uc.user, Auth := [.publicKeys signer],
               HostKeyCallback := .knownHosts check, Timeout := timeout },
         [.readIdentityFile uc.identityFile, .loadKnownHosts uc.knownHosts])) ∧
    (∀ e, w.knownhostsNew uc.knownHosts = .error e →
      NewSSHClientConfig w timeout false uc =
        (.error e,
         [.readIdentityFile uc.identityFile, .loadKnownHosts uc.knownHosts])) := by
  refine ⟨⟨?_, fun _ => rfl⟩, fun check hkh => ?_, fun e hkh => ?_⟩
  · simp [NewSSHClientConfig, hrf, hpk]
  · simp [NewSSHClientConfig, hrf, hpk, hkh]
  · simp [NewSSHClientConfig, hrf, hpk, hkh]

/-- C2, witness: the policy selection at concrete worlds — skip flag on,
skip flag off with a parsable database, and skip flag off with an unparsable
database. -/
theorem NewSSHClientConfig_host_verification_policy_witness :
    (NewSSHClientConfig authKnown 30 true ucFull =
        (.ok { User := "admin", Auth := [.publicKeys ⟨"ed25519-signer"⟩],
               HostKeyCallback := .insecureIgnore, Timeout := 30 },
         [.readIdentityFile "/home/testuser/.ssh/id_rsa"]) ∧
      ∀ hostId, HostKeyCallback.insecureIgnore.accepts hostId = true) ∧
    NewSSHClientConfig authKnown 30 false ucFull =
        (.ok { User := "admin", Auth := [.publicKeys ⟨"ed25519-signer"⟩],
               HostKeyCallback := .knownHosts (fun hostId => hostId == "known.example.com"),
               Timeout := 30 },
         [.readIdentityFile "/home/testuser/.ssh/id_rsa",
          .loadKnownHosts "/home/testuser/.ssh/known_hosts"]) ∧
    NewSSHClientConfig authBadKnownHosts 30 false ucFull =
        (.error (.knownHostsFailed "illegal base64 data"),
         [.readIdentityFile "/home/testuser/.ssh/id_rsa",
          .loadKnownHosts "/home/testuser/.ssh/known_hosts"]) := by
  refine ⟨(NewSSHClientConfig_host_verification_policy authKnown 30 ucFull
      "PRIVATE KEY BYTES" ⟨"ed25519-signer"⟩ rfl rfl).1, ?_, ?_⟩
  · exact (NewSSHClientConfig_host_verification_policy authKnown 30 ucFull
      "PRIVATE KEY BYTES" ⟨"ed25519-signer"⟩ rfl rfl).2.1 _ rfl
  · exact (NewSSHClientConfig_host_verification_policy authBadKnownHosts 30 ucFull
      "PRIVATE KEY BYTES" ⟨"ed25519-signer"⟩ rfl rfl).2.2 _ rfl

/-- C3: when the HTTP response is fully received (all tunnel operations and
the body read succeed), `Run`'s exit code is 0 exactly when the status code
lies in [200, 300), and 1 for every other status code; the status line and
body are printed in every such case, so a non-2xx response is rendered as a
normal outcome. -/
theorem Run_exit_code_iff_2xx (w : RunWorld) (rc : RemoteCLI)
    (resp : HTTPResponse) (body : String)
    (hs : w.sshDial = .ok ()) (hu : w.unixDial = .ok ()) (hw : w.writeReq = .ok ())
    (hr : w.readResp = .ok resp) (hb : w.readBody = .ok body) :
    ((RemoteCLI.Run w rc).1 = 0 ↔ 200 ≤ resp.StatusCode ∧ resp.StatusCode < 300) ∧
    ((RemoteCLI.Run w rc).1 = 1 ↔ ¬ (200 ≤ resp.StatusCode ∧ resp.StatusCode < 300)) ∧
    Event.printStatus resp.Status ∈ (RemoteCLI.Run w rc).2 ∧
    Event.printBody body ∈ (RemoteCLI.Run w rc).2 := by
  simp only [RemoteCLI.Run, hs, hu, hw, hr, hb]
  refine ⟨?_, ?_, by simp, by simp⟩ <;> split <;> rename_i hcond <;>
    constructor <;> intro h <;> omega

/-- C3, witness: a stubbed 200 response exits 0; stubbed 404 and 500
responses exit 1. -/
theorem Run_exit_code_iff_2xx_witness :
    (RemoteCLI.Run (runRespond 200 "200 OK") rcFixture).1 = 0 ∧
    (RemoteCLI.Run (runRespond 404 "404 Not Found") rcFixture).1 = 1 ∧
    (RemoteCLI.Run (runRespond 500 "500 Internal Server Error") rcFixture).1 = 1 := by
  refine ⟨?_, ?_, ?_⟩
  · exact ((Run_exit_code_iff_2xx (runRespond 200 "200 OK") rcFixture
      { Status := "200 OK", StatusCode := 200 } "[]" rfl rfl rfl rfl rfl).1).mpr
      (by constructor <;> decide)
  · exact ((Run_exit_code_iff_2xx (runRespond 404 "404 Not Found") rcFixture
      { Status := "404 Not Found", StatusCode := 404 } "[]" rfl rfl rfl rfl rfl).2.1).mpr
      (by decide)
  · exact ((Run_exit_code_iff_2xx (runRespond 500 "500 Internal Server Error") rcFixture
      { Status := "500 Internal Server Error", StatusCode := 500 } "[]"
      rfl rfl rfl rfl rfl).2.1).mpr (by decide)

/-- C4: whenever `NewUserConfig` succeeds (given a non-empty alias and
non-empty `USER` and `HOME`), all four of hostName, port, user and
identityFile are non-blank, and each is either the configured override or its
stated default. -/
theorem NewUserConfig_fields_populated (w : ClientWorld) (conf : SSHConfFile)
    (host hn u0 f0 p0 : String) (uc : UserConfig)
    (hhost : host ≠ "") (huser : w.osUser ≠ "") (hhome : w.home ≠ "")
    (ho : w.openConfig = .ok ()) (hd : w.decode = .ok conf)
    (hHN : conf.Get host "HostName" = .ok hn) (hU : conf.Get host "User" = .ok u0)
    (hid : conf.Get host "IdentityFile" = .ok f0) (hP : conf.Get host "Port" = .ok p0)
    (hok : NewUserConfig w host = .ok uc) :
    (uc.hostName ≠ "" ∧ uc.port ≠ "" ∧ uc.user ≠ "" ∧ uc.identityFile ≠ "") ∧
    (uc.hostName = hn ∨ uc.hostName = host) ∧
    (uc.user = u0 ∨ uc.user = w.osUser) ∧
    (uc.port = p0 ∨ uc.port = "22") ∧
    (uc.identityFile = f0 ∨ uc.identityFile = filepathJoin [w.home, f0.drop 2] ∨
      uc.identityFile = sshUserFilePath w.home "id_ed25519") := by
  simp only [NewUserConfig, ho, hd, hHN, hU, hid, hP] at hok
  injection hok with hok
  subst hok
  refine ⟨⟨?_, ?_, ?_, ?_⟩, ?_, ?_, ?_, ?_⟩
  · by_cases h : hn = "" <;> simp [h, hhost]
  · by_cases h : p0 = "" <;> simp [h]
  · by_cases h : u0 = "" <;> simp [h, huser]
  · by_cases h1 : f0 = ""
    · simp only [h1, if_true]
      exact filepathJoin_cons_ne_empty _ _ hhome
    · simp only [h1, if_false]
      by_cases h2 : goStartsWith f0 "~/"
      · simp only [h2, if_true]
        exact filepathJoin_cons_ne_empty _ _ hhome
      · simp only [h2]
        simpa using h1
  · by_cases h : hn = "" <;> simp [h]
  · by_cases h : u0 = "" <;> simp [h]
  · by_cases h : p0 = "" <;> simp [h]
  · by_cases h1 : f0 = ""
    · simp [h1, sshUserFilePath]
    · by_cases h2 : goStartsWith f0 "~/" <;> simp [h1, h2]

/-- C4, witness: the populated-fields property at the fully-configured
fixture (`Host myserver` with overrides for all four directives). -/
theorem NewUserConfig_fields_populated_witness :
    (ucFull.hostName ≠ "" ∧ ucFull.port ≠ "" ∧ ucFull.user ≠ "" ∧
      ucFull.identityFile ≠ "") ∧
    (ucFull.hostName = "192.168.1.100" ∨ ucFull.hostName = "myserver") ∧
    (ucFull.user = "admin" ∨ ucFull.user = worldFull.osUser) ∧
    (ucFull.port = "2222" ∨ ucFull.port = "22") ∧
    (ucFull.identityFile = "~/.ssh/id_rsa" ∨
      ucFull.identityFile = filepathJoin [worldFull.home, String.drop "~/.ssh/id_rsa" 2] ∨
      ucFull.identityFile = sshUserFilePath worldFull.home "id_ed25519") :=
  NewUserConfig_fields_populated worldFull confFull "myserver" "192.168.1.100"
    "admin" "~/.ssh/id_rsa" "2222" ucFull
    (by decide) (by decide) (by decide) rfl rfl rfl rfl rfl rfl rfl

/-- C5: a positional command name absent from the registry makes
`NewRemoteCLI` fail with the distinct invalid-command error before host
resolution, credential loading, or any connection attempt: the trace of the
construction — and of the whole program run — is empty, so no socket is ever
dialed. -/
theorem NewRemoteCLI_invalid_command_fails_first (w : CLIWorld) (host : String)
    (timeout : Duration) (insecure : Bool) (c : String) (rest : List String)
    (hh : host ≠ "") (hc : IsCommand c = none) :
    NewRemoteCLI w host timeout insecure (c :: rest) =
      (.error (.invalidCommand c), []) ∧
    mainGo w host timeout insecure (c :: rest) = (1, []) := by
  have h1 : NewRemoteCLI w host timeout insecure (c :: rest) =
      (.error (.invalidCommand c), []) := by
    simp [NewRemoteCLI, hh, hc]
  exact ⟨h1, by simp [mainGo, h1]⟩

/-- C5, witness: invoking the unknown command `bogus_command` at a concrete
world fails with the invalid-command error and an empty trace. -/
theorem NewRemoteCLI_invalid_command_fails_first_witness :
    NewRemoteCLI cliFixture "myserver" 30 false ["bogus_command"] =
      (.error (.invalidCommand "bogus_command"), []) ∧
    mainGo cliFixture "myserver" 30 false ["bogus_command"] = (1, []) :=
  NewRemoteCLI_invalid_command_fails_first cliFixture "myserver" 30 false
    "bogus_command" [] (by decide) (by decide)

/-- C6: for an alias with no directives at all (absent alias, or an entirely
empty configuration file), resolution succeeds with hostName equal to the
alias, port `"22"`, user equal to the invoking OS user, and the conventional
Ed25519 identity path under the resolved home directory. -/
theorem NewUserConfig_absent_alias_defaults (w : ClientWorld) (conf : SSHConfFile)
    (host : String)
    (ho : w.openConfig = .ok ()) (hd : w.decode = .ok conf)
    (habs : ∀ key, conf.Get host key = .ok "") :
    NewUserConfig w host =
      .ok { user := w.osUser, port := "22", hostName := host,
            knownHosts := sshUserFilePath w.home "known_hosts",
            identityFile := sshUserFilePath w.home "id_ed25519" } := by
  simp [NewUserConfig, ho, hd, habs]

/-- C6, witness: resolving `anyhost` against an empty configuration yields
the fully-defaulted configuration. -/
theorem NewUserConfig_absent_alias_defaults_witness :
    NewUserConfig worldEmpty "anyhost" =
      .ok { user := "testuser", port := "22", hostName := "anyhost",
            knownHosts := "/home/testuser/.ssh/known_hosts",
            identityFile := "/home/testuser/.ssh/id_ed25519" } :=
  NewUserConfig_absent_alias_defaults worldEmpty confEmpty "anyhost"
    rfl rfl (fun _ => rfl)

/-- C7: a configured `IdentityFile` of the form `~/X` resolves to `X` joined
under the resolved home directory, and a non-empty identity path that does
not start with `~/` is used verbatim. -/
theorem NewUserConfig_identity_tilde_expansion (w : ClientWorld)
    (conf : SSHConfFile) (host hn u0 idFile p0 : String)
    (ho : w.openConfig = .ok ()) (hd : w.decode = .ok conf)
    (hHN : conf.Get host "HostName" = .ok hn) (hU : conf.Get host "User" = .ok u0)
    (hid : conf.Get host "IdentityFile" = .ok idFile)
    (hP : conf.Get host "Port" = .ok p0) :
    (goStartsWith idFile "~/" = true →
      ∃ uc, NewUserConfig w host = .ok uc ∧
        uc.identityFile = filepathJoin [w.home, idFile.drop 2]) ∧
    (idFile ≠ "" → goStartsWith idFile "~/" = false →
      ∃ uc, NewUserConfig w host = .ok uc ∧ uc.identityFile = idFile) := by
  constructor
  · intro hpre
    have hne : idFile ≠ "" := by
      intro hcon; subst hcon; exact absurd hpre (by decide)
    have hok : NewUserConfig w host =
        .ok { user := if u0 = "" then w.osUser else u0,
              port := if p0 = "" then "22" else p0,
              hostName := if hn = "" then host else hn,
              knownHosts := sshUserFilePath w.home "known_hosts",
              identityFile := filepathJoin [w.home, idFile.drop 2] } := by
      simp [NewUserConfig, ho, hd, hHN, hU, hid, hP, hne, hpre]
    exact ⟨_, hok, rfl⟩
  · intro hne hpre
    have hok : NewUserConfig w host =
        .ok { user := if u0 = "" then w.osUser else u0,
              port := if p0 = "" then "22" else p0,
              hostName := if hn = "" then host else hn,
              knownHosts := sshUserFilePath w.home "known_hosts",
              identityFile := idFile } := by
      simp [NewUserConfig, ho, hd, hHN, hU, hid, hP, hne, hpre]
    exact ⟨_, hok, rfl⟩

/-- C7, witness: `~/.ssh/id_rsa` expands to `/home/testuser/.ssh/id_rsa`, and
the absolute path `/etc/keys/op_key` is kept verbatim. -/
theorem NewUserConfig_identity_tilde_expansion_witness :
    (∃ uc, NewUserConfig worldTilde "myserver" = .ok uc ∧
      uc.identityFile = "/home/testuser/.ssh/id_rsa") ∧
    (∃ uc, NewUserConfig worldVerbatim "myserver" = .ok uc ∧
      uc.identityFile = "/etc/keys/op_key") := by
  constructor
  · exact (NewUserConfig_identity_tilde_expansion worldTilde confTilde "myserver"
      "" "" "~/.ssh/id_rsa" "" rfl rfl rfl rfl rfl rfl).1 rfl
  · exact (NewUserConfig_identity_tilde_expansion worldVerbatim confVerbatim "myserver"
      "" "" "/etc/keys/op_key" "" rfl rfl rfl rfl rfl rfl).2 (by decide) rfl

/-- C8: on every exit path of `Run` after both the secure session and the
forwarded channel are open — success, request-write failure, response-parse
failure, or body-read failure — the trace ends with exactly one close of the
channel followed by exactly one close of the session, and neither close
occurs earlier. -/
theorem Run_closes_channel_then_session (w : RunWorld) (rc : RemoteCLI)
    (hs : w.sshDial = .ok ()) (hu : w.unixDial = .ok ()) :
    ∃ t : List Event,
      (RemoteCLI.Run w rc).2 = t ++ [Event.closeChannel, Event.closeSession] ∧
      ∀ e ∈ t, e ≠ Event.closeChannel ∧ e ≠ Event.closeSession := by
  simp only [RemoteCLI.Run, hs, hu]
  cases hwr : w.writeReq with
  | error e =>
    exact ⟨[.sshDial rc.addr, .unixDial remoteSocket, .writeRequest], by simp, by simp⟩
  | ok u =>
    cases hrr : w.readResp with
    | error e =>
      exact ⟨[.sshDial rc.addr, .unixDial remoteSocket, .writeRequest, .readResponse],
        by simp, by simp⟩
    | ok resp =>
      cases hrb : w.readBody with
      | error e =>
        exact ⟨[.sshDial rc.addr, .unixDial remoteSocket, .writeRequest, .readResponse,
          .printStatus resp.Status, .readBody, .closeBody], by simp, by simp⟩
      | ok body =>
        exact ⟨[.sshDial rc.addr, .unixDial remoteSocket, .writeRequest, .readResponse,
          .printStatus resp.Status, .readBody, .printBody body, .closeBody],
          by simp, by simp⟩

/-- C8, witness: the cleanup shape at a concrete successful run. -/
theorem Run_closes_channel_then_session_witness :
    ∃ t : List Event,
      (RemoteCLI.Run (runRespond 200 "200 OK") rcFixture).2 =
        t ++ [Event.closeChannel, Event.closeSession] ∧
      ∀ e ∈ t, e ≠ Event.closeChannel ∧ e ≠ Event.closeSession :=
  Run_closes_channel_then_session (runRespond 200 "200 OK") rcFixture rfl rfl

/-- C9: `Commands()` always returns a fresh copy of the registry: after any
sequence of `Commands()` calls and mutations of the returned references, the
internal registry cell still holds the original registry; mutating one
returned map leaves every other heap cell unchanged; and the value returned
by any call is always the same copy of the registry. -/
theorem Commands_returns_fresh_copy :
    (∀ ops : List MapOp, (∀ op ∈ ops, mutatesOnlyReturned op) →
      readMapRef (runMapOps initMapState ops) registryRef = commands) ∧
    (∀ (s : MapState) (r : Nat) (k : String) (v : Command) (r' : Nat), r' ≠ r →
      readMapRef (stepMapOp s (.assign r k v)) r' = readMapRef s r' ∧
      readMapRef (stepMapOp s (.del r k)) r' = readMapRef s r') ∧
    (∀ ops : List MapOp, (∀ op ∈ ops, mutatesOnlyReturned op) →
      readMapRef (CommandsGo (runMapOps initMapState ops)).2
        (CommandsGo (runMapOps initMapState ops)).1 = copyMap commands) := by
  have hinit : initMapState.heap[registryRef]? = some commands := rfl
  refine ⟨?_, ?_, ?_⟩
  · intro ops hops
    show ((runMapOps initMapState ops).heap[registryRef]?).getD [] = commands
    rw [registry_stable ops initMapState hinit hops]
    rfl
  · intro s r k v r' hne
    constructor
    · show ((s.heap.set r _)[r']?).getD [] = _
      rw [List.getElem?_set_ne (Ne.symm hne)]
      rfl
    · show ((s.heap.set r _)[r']?).getD [] = _
      rw [List.getElem?_set_ne (Ne.symm hne)]
      rfl
  · intro ops hops
    rw [CommandsGo_returned_value]
    show copyMap (((runMapOps initMapState ops).heap[registryRef]?).getD []) = _
    rw [registry_stable ops initMapState hinit hops]
    rfl

/-- C9, witness: after calling `Commands()` and mutating the returned map,
the registry still holds only `list_containers`, and a further call returns
the same copy again. -/
theorem Commands_returns_fresh_copy_witness :
    readMapRef (runMapOps initMapState opsFixture) registryRef = commands ∧
    readMapRef (CommandsGo (runMapOps initMapState opsFixture)).2
      (CommandsGo (runMapOps initMapState opsFixture)).1 = copyMap commands := by
  have hops : ∀ op ∈ opsFixture, mutatesOnlyReturned op := by
    intro op hop
    simp only [opsFixture, List.mem_cons, List.not_mem_nil, or_false] at hop
    rcases hop with rfl | rfl
    · trivial
    · exact Nat.le_refl 1
  exact ⟨Commands_returns_fresh_copy.1 opsFixture hops,
    Commands_returns_fresh_copy.2.2 opsFixture hops⟩

/-- C10: `Addr()` is the plain concatenation of hostName, one colon, and the
port string, with no bracketing; consequently an IPv6-literal hostName yields
an address whose host/port split is ambiguous — two different configurations
produce the same address string. -/
theorem Addr_is_plain_concat :
    (∀ uc : UserConfig, uc.Addr = uc.hostName ++ ":" ++ uc.port) ∧
    (UserConfig.mk "" "22" "2001:db8::1" "" "").Addr
        = (UserConfig.mk "" "db8::1:22" "2001" "" "").Addr ∧
    UserConfig.mk "" "22" "2001:db8::1" "" "" ≠
      UserConfig.mk "" "db8::1:22" "2001" "" "" := by
  refine ⟨?_, by decide, by decide⟩
  intro uc
  apply String.ext
  rw [String.data_append, String.data_append]
  show uc.hostName.data ++ ':' :: (uc.port.data ++ []) = _
  simp

end PodmanCli
